import Mathlib

/-!
Shallow embedding of the "Add Cluster As Release" Picard plugin
(src/plugins/addrelease/addrelease.py) and verification of the frozen
claims about its disc-number normalization and form-value building.
-/

namespace Addrelease

/-- Helper for pyParseInt: fold a list of characters into a natural
number, failing when a non-digit is met. -/
def digitsToNatAux : List Char → Nat → Option Nat
  | [], acc => some acc
  | c :: rest, acc =>
      if c.isDigit then digitsToNatAux rest (acc * 10 + (c.toNat - 48)) else none

/-- Helper for pyParseInt: parse a non-empty all-digit character list. -/
def digitsToNat (cs : List Char) : Option Nat :=
  if cs.isEmpty then none else digitsToNatAux cs 0

/-- Strip whitespace from both ends of a character list, as Python int()
does before parsing. -/
def pyTrim (cs : List Char) : List Char :=
  ((cs.dropWhile Char.isWhitespace).reverse.dropWhile Char.isWhitespace).reverse

/-- Model of the fragment of Python built-in base-10 int(str) parsing the
plugin exercises: surrounding whitespace is stripped, an optional sign is
followed by one or more decimal digits; anything else raises ValueError,
modelled as none. -/
def pyParseInt (s : String) : Option Int :=
  match pyTrim s.data with
  | '-' :: rest => (digitsToNat rest).map (fun n => -(n : Int))
  | '+' :: rest => (digitsToNat rest).map (fun n => (n : Int))
  | cs => (digitsToNat cs).map (fun n => (n : Int))

/-- Per-file tag metadata as the plugin reads it: discnumber may be absent
(metadata.get default), the other tags are strings, length is the numeric
duration that the code renders with str(). -/
structure Metadata where
  discnumber : Option String
  tracknumber : String
  title : String
  artist : String
  length : Int
  filename : String
deriving DecidableEq

/-- Normalizer session state: the single integer discnumber_shift field of
AddClusterAsRelease. -/
structure NormalizerState where
  shift : Int
deriving DecidableEq

/-- The value AddClusterAsRelease.__init__ gives discnumber_shift. -/
def initState : NormalizerState := ⟨-1⟩

/-- One informational log entry emitted by log.info on a disc-number parse
failure: the originating file identifier and the error text. -/
structure Diagnostic where
  filename : String
  message : String
deriving DecidableEq

/-- Left part of the raw tag after discnumber.split("/", 1)[0], with the
absent-tag default "1" applied first: the characters before the first
slash. -/
def leftPart (raw : Option String) : String :=
  String.mk ((raw.getD "1").data.takeWhile (fun c => c ≠ '/'))

/-- Embedding of AddClusterAsRelease.extract_discnumber on the raw tag
value: split off any totaldiscs suffix, parse; on success raise the shift
for non-positive m then return m plus the (updated) shift; on ValueError
log one diagnostic and return 0 with the state untouched. -/
def normalize (raw : Option String) (fname : String) (s : NormalizerState) :
    Int × NormalizerState × List Diagnostic :=
  match pyParseInt (leftPart raw) with
  | some m =>
      let s' := if m ≤ 0 then ⟨max s.shift (0 - m)⟩ else s
      (m + s'.shift, s', [])
  | none =>
      (0, s, [⟨fname, "invalid literal for int() with base 10: " ++ leftPart raw⟩])

/-- extract_discnumber applied to a file metadata record. -/
def extract_discnumber (md : Metadata) (s : NormalizerState) :
    Int × NormalizerState × List Diagnostic :=
  normalize md.discnumber md.filename s

/-- A sequence of normalize calls threaded through one NormalizerState,
collecting the returned medium indices. -/
def normalizeSeq : List (Option String) → NormalizerState → List Int × NormalizerState
  | [], s => ([], s)
  | r :: rest, s =>
      let out := normalize r "" s
      let next := normalizeSeq rest out.2.1
      (out.1 :: next.1, next.2)

/-- Cluster-level aggregate metadata the action reads. -/
structure ClusterMeta where
  albumartist : String
  album : String
deriving DecidableEq

/-- A cluster: its aggregate metadata and its ordered file sequence. -/
structure Cluster where
  metadata : ClusterMeta
  files : List Metadata
deriving DecidableEq

/-- The per-track field path "mediums.%d.track.%d.%s" built in
set_form_values. -/
def trackKey (m i : Int) (n : String) : String :=
  "mediums." ++ toString m ++ ".track." ++ toString i ++ "." ++ n

/-- The track index of the loop body: int(tracknumber) - 1 when the tag
parses, otherwise the positional index from enumerate (the bare except
swallows the failure). -/
def trackIndex (p : Nat) (tracknumber : String) : Int :=
  match pyParseInt tracknumber with
  | some t => t - 1
  | none => (p : Int)

/-- Insert into an ordered name-value mapping with Python dict semantics:
an existing key keeps its position and gets the new value, a new key is
appended at the end. -/
def insertFV : List (String × String) → String → String → List (String × String)
  | [], k, v => [(k, v)]
  | (k', v') :: rest, k, v =>
      if k' = k then (k', v) :: rest else (k', v') :: insertFV rest k v

/-- Fold a pair sequence into a mapping with insertFV, left to right. -/
def insertAll (fv : List (String × String)) (ps : List (String × String)) :
    List (String × String) :=
  ps.foldl (fun acc kv => insertFV acc kv.1 kv.2) fv

/-- Lookup in the ordered mapping: the value stored under the first
matching key. -/
def lookupFV : List (String × String) → String → Option String
  | [], _ => none
  | (k', v) :: rest, k => if k' = k then some v else lookupFV rest k

/-- The name-value pairs the set_form_values loop body emits for one file,
in source order: track name, the artist credit only when the file artist
differs from the album artist, then the length. -/
def filePairs (albumartist : String) (p : Nat) (f : Metadata)
    (s : NormalizerState) : List (String × String) :=
  let i := trackIndex p f.tracknumber
  let m := (extract_discnumber f s).1
  (trackKey m i "name", f.title) ::
    ((if f.artist ≠ albumartist
        then [(trackKey m i "artist_credit.names.0.name", f.artist)] else []) ++
      [(trackKey m i "length", toString f.length)])

/-- The enumerate loop of set_form_values: each file's pairs are inserted
into the mapping and the normalizer state is threaded to the next file. -/
def processFiles (albumartist : String) :
    List Metadata → Nat → NormalizerState → List (String × String) →
      NormalizerState × List (String × String)
  | [], _, s, fv => (s, fv)
  | f :: rest, p, s, fv =>
      processFiles albumartist rest (p + 1) (extract_discnumber f s).2.1
        (insertAll fv (filePairs albumartist p f s))

/-- The two release-level pairs inserted before the loop. -/
def releasePairs (c : Cluster) : List (String × String) :=
  [("artist_credit.names.0.artist.name", c.metadata.albumartist),
   ("name", c.metadata.album)]

/-- AddClusterAsRelease.set_form_values: release-level pairs first, then
the per-file loop, all inserted into the current form_values mapping. -/
def set_form_values (c : Cluster) (s : NormalizerState)
    (fv : List (String × String)) : NormalizerState × List (String × String) :=
  processFiles c.metadata.albumartist c.files 0 s (insertAll fv (releasePairs c))

/-- The flat pair sequence of one whole build: release pairs followed by
every file's pairs in processing order, with the state threaded the same
way processFiles threads it. -/
def trackPairsSeq (albumartist : String) :
    List Metadata → Nat → NormalizerState → List (String × String)
  | [], _, _ => []
  | f :: rest, p, s =>
      filePairs albumartist p f s ++
        trackPairsSeq albumartist rest (p + 1) (extract_discnumber f s).2.1

/-- All pairs of one set_form_values build in insertion order. -/
def clusterPairs (c : Cluster) (s : NormalizerState) : List (String × String) :=
  releasePairs c ++ trackPairsSeq c.metadata.albumartist c.files 0 s

/-- The persistent state of the AddClusterAsRelease action object: it is
constructed once at plugin registration, and callback mutates it in
place. -/
structure ActionState where
  discnumber_shift : Int
  form_values : List (String × String)
deriving DecidableEq

/-- The action object as AddClusterAsRelease.__init__ leaves it. -/
def initAction : ActionState := ⟨-1, []⟩

/-- AddObjectAsEntity.callback on a cluster: set_form_values populates
form_values, the mapping is rendered to the HTML file (returned here as
the build result), and the finally block clears form_values — but the
discnumber shift is left as the build ended it. -/
def callback (c : Cluster) (a : ActionState) :
    ActionState × List (String × String) :=
  let out := set_form_values c ⟨a.discnumber_shift⟩ a.form_values
  (⟨out.1.shift, []⟩, out.2)

/-- Objects a context-menu action can receive. -/
inductive PicardObject
  | clusterObj (c : Cluster)
  | fileObj (f : Metadata)
  | otherObj
deriving DecidableEq

/-- The objtype class constants an action dispatches on. -/
inductive ObjType
  | clusterType
  | fileType
deriving DecidableEq

/-- Python isinstance on the two relevant classes. -/
def isinstance : PicardObject → ObjType → Bool
  | .clusterObj _, .clusterType => true
  | .fileObj _, .fileType => true
  | _, _ => false

/-- AddObjectAsEntity.check_object: objs[0] is evaluated first, so the
empty list raises IndexError (modelled as Except.error); otherwise the
object is returned when the list has exactly one element of the right
type, and the False sentinel (modelled as none) otherwise. -/
def check_object (objs : List PicardObject) (objtype : ObjType) :
    Except String (Option PicardObject) :=
  match objs with
  | [] => .error "IndexError: list index out of range"
  | o :: rest =>
      if ¬ (isinstance o objtype = true) ∨ (o :: rest).length ≠ 1
        then .ok none
        else .ok (some o)

/-- The shift evolution of one pass of the loop, ignoring the mapping. -/
def shiftsAfter : List Metadata → NormalizerState → NormalizerState
  | [], s => s
  | f :: rest, s => shiftsAfter rest (extract_discnumber f s).2.1

lemma normalize_shift_le (raw : Option String) (fname : String)
    (s : NormalizerState) : s.shift ≤ (normalize raw fname s).2.1.shift := by
  unfold normalize
  cases h : pyParseInt (leftPart raw) with
  | none => simp
  | some m =>
      by_cases hm : m ≤ 0
      · simp [hm]
      · simp [hm]

lemma normalize_fst_nonneg (raw : Option String) (fname : String)
    (s : NormalizerState) (h : -1 ≤ s.shift) : 0 ≤ (normalize raw fname s).1 := by
  unfold normalize
  cases hp : pyParseInt (leftPart raw) with
  | none => simp
  | some m => by_cases hm : m ≤ 0 <;> simp [hm] <;> omega

lemma normalizeSeq_shift_le (raws : List (Option String)) :
    ∀ s : NormalizerState, s.shift ≤ (normalizeSeq raws s).2.shift := by
  induction raws with
  | nil => intro s; simp [normalizeSeq]
  | cons r rest ih =>
      intro s
      simpa [normalizeSeq] using
        le_trans (normalize_shift_le r "" s) (ih (normalize r "" s).2.1)

lemma normalizeSeq_fst_nonneg (raws : List (Option String)) :
    ∀ s : NormalizerState, -1 ≤ s.shift →
      ∀ x ∈ (normalizeSeq raws s).1, 0 ≤ x := by
  induction raws with
  | nil => intro s _ x hx; simp [normalizeSeq] at hx
  | cons r rest ih =>
      intro s h x hx
      simp only [normalizeSeq, List.mem_cons] at hx
      rcases hx with hx | hx
      · exact hx ▸ normalize_fst_nonneg r "" s h
      · exact ih (normalize r "" s).2.1
          (le_trans h (normalize_shift_le r "" s)) x hx

/-- Claim C2: with one NormalizerState s starting fresh, the claimed pair
of results for normalize("-1/4", s) then normalize("1/4", s) — second
call returning 3 with the shift having become 2 — does not hold on the
code: the refutation is evaluated at exactly that input. -/
theorem claim_C2_counterexample :
    ¬((normalize (some "1/4") "f" (normalize (some "-1/4") "f" initState).2.1).1 = 3 ∧
      (normalize (some "1/4") "f"
        (normalize (some "-1/4") "f" initState).2.1).2.1.shift = 2) := by decide

/-- Claim C2 (amended): from a fresh state, normalize("-1/4", s) raises
the shift from -1 to 1 and returns 0, and the subsequent
normalize("1/4", s) reflects that increase, returning 2 with the shift at
1; the figures quoted by the spec — second call returning 3 with shift 2
— arise only when a prior call such as normalize("-2/2", s) has already
raised the shift to 2, as in the source doctest, which is also proved
here. -/
theorem claim_C2_amended :
    (normalize (some "-1/4") "f" initState).1 = 0 ∧
    (normalize (some "-1/4") "f" initState).2.1.shift = 1 ∧
    (normalize (some "1/4") "f" (normalize (some "-1/4") "f" initState).2.1).1 = 2 ∧
    (normalize (some "1/4") "f"
      (normalize (some "-1/4") "f" initState).2.1).2.1.shift = 1 ∧
    (normalize (some "-1/4") "f" (normalize (some "-2/2") "f" initState).2.1).1 = 1 ∧
    (normalize (some "1/4") "f" (normalize (some "-1/4") "f"
      (normalize (some "-2/2") "f" initState).2.1).2.1).1 = 3 ∧
    (normalize (some "1/4") "f" (normalize (some "-1/4") "f"
      (normalize (some "-2/2") "f" initState).2.1).2.1).2.1.shift = 2 := by decide

/-- Claim C3: every medium index returned by a sequence of normalize
calls threaded through one NormalizerState that starts fresh (shift = -1)
is nonnegative, including calls whose input parses to an integer below 1
and parse-failure calls. -/
theorem claim_C3 (raws : List (Option String)) (x : Int)
    (hx : x ∈ (normalizeSeq raws initState).1) : 0 ≤ x :=
  normalizeSeq_fst_nonneg raws initState (by decide) x hx

/-- Witness for claim C3 at the concrete sequence ["0", "boop", "5"]: the
first returned index 0 is in the output and is nonnegative. -/
theorem claim_C3_witness :
    (0 : Int) ∈ (normalizeSeq [some "0", some "boop", some "5"] initState).1 ∧
    (0 : Int) ≤ 0 :=
  ⟨by decide, claim_C3 [some "0", some "boop", some "5"] 0 (by decide)⟩

/-- Claim C4: when the part of the tag left of the first slash does not
parse as a base-10 integer, normalize returns 0, leaves the state
untouched, and emits exactly one diagnostic holding the originating file
identifier and the error text; the operation is total, so no exception
escapes. -/
theorem claim_C4 (raw : Option String) (fname : String) (s : NormalizerState)
    (h : pyParseInt (leftPart raw) = none) :
    normalize raw fname s =
      (0, s, [⟨fname, "invalid literal for int() with base 10: " ++ leftPart raw⟩]) := by
  simp [normalize, h]

/-- Witness for claim C4 at the doctest input "boop". -/
theorem claim_C4_witness :
    pyParseInt (leftPart (some "boop")) = none ∧
    normalize (some "boop") "file.mp3" initState =
      (0, initState,
        [⟨"file.mp3", "invalid literal for int() with base 10: boop"⟩]) := by
  refine ⟨by decide, ?_⟩
  rw [claim_C4 (some "boop") "file.mp3" initState (by decide)]
  decide

/-- Claim C5: the shift starts at -1, is monotonically non-decreasing
under one normalize call and under any sequence of calls, and each call
either leaves the state unchanged (parse failure, or parsed m above 0)
or sets the shift to max(shift, -m) for parsed m at most 0. -/
theorem claim_C5 (raw : Option String) (fname : String) (s : NormalizerState)
    (raws : List (Option String)) (m : Int) :
    initState.shift = -1 ∧
    s.shift ≤ (normalize raw fname s).2.1.shift ∧
    s.shift ≤ (normalizeSeq raws s).2.shift ∧
    (pyParseInt (leftPart raw) = some m →
      (normalize raw fname s).2.1.shift =
        if m ≤ 0 then max s.shift (0 - m) else s.shift) ∧
    (pyParseInt (leftPart raw) = none → (normalize raw fname s).2.1 = s) := by
  refine ⟨rfl, normalize_shift_le raw fname s, normalizeSeq_shift_le raws s, ?_, ?_⟩
  · intro h; by_cases hm : m ≤ 0 <;> simp [normalize, h, hm]
  · intro h; simp [normalize, h]

/-- Witness for claim C5 at the inputs "-3" (parses to -3, shift raised
to 3) and "x" (parse failure, state untouched). -/
theorem claim_C5_witness :
    pyParseInt (leftPart (some "-3")) = some (-3) ∧
    (normalize (some "-3") "f" initState).2.1.shift =
      max initState.shift (0 - (-3)) ∧
    pyParseInt (leftPart (some "x")) = none ∧
    (normalize (some "x") "f" initState).2.1 = initState := by
  refine ⟨by decide, ?_, by decide, ?_⟩
  · have h := (claim_C5 (some "-3") "f" initState [] (-3)).2.2.2.1 (by decide)
    simpa using h
  · exact (claim_C5 (some "x") "f" initState [] 0).2.2.2.2 (by decide)

/-- Claim C6: from a fresh state, an absent tag (defaulting to "1")
normalizes to 0, "1" to 0, "2" to 1, and "2/2" to 1 — the total-discs
suffix is dropped and does not affect the result. -/
theorem claim_C6 :
    (normalize none "f" initState).1 = 0 ∧
    (normalize (some "1") "f" initState).1 = 0 ∧
    (normalize (some "2") "f" initState).1 = 1 ∧
    (normalize (some "2/2") "f" initState).1 = 1 := by decide

lemma trackKey_eq_length (m i : Int) (n₁ n₂ : String)
    (h : trackKey m i n₁ = trackKey m i n₂) : n₁.length = n₂.length := by
  have hl := congrArg String.length h
  simp only [trackKey, String.length_append] at hl
  omega

/-- Claim C7: the per-track artist-credit field path is among the keys
emitted for a file exactly when that file's artist differs from the
cluster's album artist; on exact string equality the field is absent from
the file's pairs. -/
theorem claim_C7 (albumartist : String) (p : Nat) (f : Metadata)
    (s : NormalizerState) :
    trackKey (extract_discnumber f s).1 (trackIndex p f.tracknumber)
        "artist_credit.names.0.name"
      ∈ (filePairs albumartist p f s).map Prod.fst ↔
    f.artist ≠ albumartist := by
  by_cases h : f.artist = albumartist
  · simp only [h, ne_eq, not_true_eq_false, iff_false]
    intro hk
    simp [filePairs, h] at hk
    rcases hk with hk | hk <;>
      exact absurd (trackKey_eq_length _ _ _ _ hk) (by decide)
  · simp [filePairs, h]

/-- Claim C8: the first per-track key a file emits is the track-name path
built from the computed medium and track indices, and the track index is
int(tracknumber) - 1 when the tag parses, falling back silently to the
positional index when it does not; the computation is total, so nothing
raises. -/
theorem claim_C8 (albumartist : String) (p : Nat) (f : Metadata)
    (s : NormalizerState) :
    ((filePairs albumartist p f s).map Prod.fst).head? =
      some (trackKey (extract_discnumber f s).1
        (trackIndex p f.tracknumber) "name") ∧
    (∀ t, pyParseInt f.tracknumber = some t →
      trackIndex p f.tracknumber = t - 1) ∧
    (pyParseInt f.tracknumber = none → trackIndex p f.tracknumber = (p : Int)) := by
  refine ⟨by simp [filePairs], ?_, ?_⟩
  · intro t h; simp [trackIndex, h]
  · intro h; simp [trackIndex, h]

/-- Witness for claim C8: tracknumber "7" parses and gives index 6,
tracknumber "x" fails and gives the positional index 4. -/
theorem claim_C8_witness :
    (pyParseInt "7" = some 7 ∧ trackIndex 4 "7" = 6) ∧
    (pyParseInt "x" = none ∧ trackIndex 4 "x" = 4) := by
  constructor
  · refine ⟨by decide, ?_⟩
    have h := (claim_C8 "a" 4 ⟨none, "7", "t", "a", 0, "f"⟩ initState).2.1 7 (by decide)
    simpa using h
  · refine ⟨by decide, ?_⟩
    have h := (claim_C8 "a" 4 ⟨none, "x", "t", "a", 0, "f"⟩ initState).2.2 (by decide)
    simpa using h

lemma insertAll_append (fv a b : List (String × String)) :
    insertAll fv (a ++ b) = insertAll (insertAll fv a) b := by
  simp [insertAll, List.foldl_append]

lemma processFiles_snd (albumartist : String) (files : List Metadata) :
    ∀ (p : Nat) (s : NormalizerState) (fv : List (String × String)),
      (processFiles albumartist files p s fv).2 =
        insertAll fv (trackPairsSeq albumartist files p s) := by
  induction files with
  | nil => intro p s fv; simp [processFiles, trackPairsSeq, insertAll]
  | cons f rest ih =>
      intro p s fv
      simp [processFiles, trackPairsSeq, insertAll_append, ih]

lemma insertFV_twice_keys (fv : List (String × String)) (k v₁ v₂ : String) :
    (insertFV (insertFV fv k v₁) k v₂).map Prod.fst =
      (insertFV fv k v₁).map Prod.fst := by
  induction fv with
  | nil => simp [insertFV]
  | cons kv rest ih =>
      obtain ⟨k', v'⟩ := kv
      by_cases h : k' = k <;> simp [insertFV, h, ih]

lemma lookupFV_insertFV_self (fv : List (String × String)) (k v : String) :
    lookupFV (insertFV fv k v) k = some v := by
  induction fv with
  | nil => simp [insertFV, lookupFV]
  | cons kv rest ih =>
      obtain ⟨k', v'⟩ := kv
      by_cases h : k' = k <;> simp [insertFV, h, lookupFV, ih]

/-- Claim C9: one build inserts exactly the release-level pairs followed
by the per-track pairs in file-processing order (the mapping is the fold
of insertFV over that ordered pair sequence), and inserting under an
already-present key keeps the key's first-insertion position in the key
order while storing the last written value. -/
theorem claim_C9 (c : Cluster) (s : NormalizerState)
    (fv fv' : List (String × String)) (k v₁ v₂ : String) :
    (set_form_values c s fv).2 = insertAll fv (clusterPairs c s) ∧
    (insertFV (insertFV fv' k v₁) k v₂).map Prod.fst =
      (insertFV fv' k v₁).map Prod.fst ∧
    lookupFV (insertFV (insertFV fv' k v₁) k v₂) k = some v₂ := by
  refine ⟨?_, insertFV_twice_keys fv' k v₁ v₂, lookupFV_insertFV_self _ k v₂⟩
  simp [set_form_values, clusterPairs, insertAll_append, processFiles_snd]

/-- Claim C10: check_object evaluates objs[0] before the arity test, so
the empty list fails with IndexError; a singleton whose element is an
instance of the requested type is returned, and a wrong-type head or an
arity other than one yields the False sentinel. -/
theorem claim_C10 (t : ObjType) (o : PicardObject) (rest : List PicardObject) :
    check_object [] t = Except.error "IndexError: list index out of range" ∧
    (isinstance o t = true → check_object [o] t = Except.ok (some o)) ∧
    (isinstance o t = false → check_object (o :: rest) t = Except.ok none) ∧
    (rest ≠ [] → check_object (o :: rest) t = Except.ok none) := by
  refine ⟨rfl, ?_, ?_, ?_⟩
  · intro h; simp [check_object, h]
  · intro h; simp [check_object, h]
  · intro h
    have hlen : (o :: rest).length ≠ 1 := by
      simp only [List.length_cons]
      intro hc
      have h0 : rest.length = 0 := by omega
      exact h (List.length_eq_zero.mp h0)
    simp only [check_object]
    rw [if_pos (Or.inr hlen)]

/-- Witness for claim C10: a singleton cluster object is accepted, a
wrong-type singleton is rejected, and a two-element list is rejected. -/
theorem claim_C10_witness :
    isinstance (PicardObject.clusterObj ⟨⟨"a", "b"⟩, []⟩) ObjType.clusterType = true ∧
    check_object [PicardObject.clusterObj ⟨⟨"a", "b"⟩, []⟩] ObjType.clusterType =
      Except.ok (some (PicardObject.clusterObj ⟨⟨"a", "b"⟩, []⟩)) ∧
    isinstance PicardObject.otherObj ObjType.clusterType = false ∧
    check_object [PicardObject.otherObj] ObjType.clusterType = Except.ok none ∧
    ([PicardObject.otherObj] : List PicardObject) ≠ [] ∧
    check_object [PicardObject.otherObj, PicardObject.otherObj] ObjType.clusterType =
      Except.ok none := by
  refine ⟨rfl, (claim_C10 ObjType.clusterType _ []).2.1 rfl, rfl,
    (claim_C10 ObjType.clusterType _ []).2.2.1 rfl, by simp,
    (claim_C10 ObjType.clusterType PicardObject.otherObj
      [PicardObject.otherObj]).2.2.2 (by simp)⟩

lemma NormalizerState.shift_ext (a b : NormalizerState)
    (h : a.shift = b.shift) : a = b := by
  cases a; cases b; simpa using h

lemma normalize_state_shape (raw : Option String) (fname : String) :
    (∀ s, (normalize raw fname s).2.1 = s) ∨
    (∃ c : Int, 0 ≤ c ∧ ∀ s, (normalize raw fname s).2.1 = ⟨max s.shift c⟩) := by
  cases h : pyParseInt (leftPart raw) with
  | none => exact Or.inl (fun s => by simp [normalize, h])
  | some m =>
      by_cases hm : m ≤ 0
      · exact Or.inr ⟨0 - m, by omega, fun s => by simp [normalize, h, hm]⟩
      · exact Or.inl (fun s => by simp [normalize, h, hm])

lemma processFiles_fst (albumartist : String) (files : List Metadata) :
    ∀ (p : Nat) (s : NormalizerState) (fv : List (String × String)),
      (processFiles albumartist files p s fv).1 = shiftsAfter files s := by
  induction files with
  | nil => intro p s fv; simp [processFiles, shiftsAfter]
  | cons f rest ih => intro p s fv; simp [processFiles, shiftsAfter, ih]

lemma shiftsAfter_le (files : List Metadata) :
    ∀ s : NormalizerState, s.shift ≤ (shiftsAfter files s).shift := by
  induction files with
  | nil => intro s; simp [shiftsAfter]
  | cons f rest ih =>
      intro s
      exact le_trans (normalize_shift_le f.discnumber f.filename s)
        (ih (extract_discnumber f s).2.1)

lemma shiftsAfter_shift_max (files : List Metadata) :
    ∀ s t : Int, s ≤ t →
      (shiftsAfter files ⟨t⟩).shift = max (shiftsAfter files ⟨s⟩).shift t := by
  induction files with
  | nil => intro s t h; simp [shiftsAfter]; omega
  | cons f rest ih =>
      intro s t h
      rcases normalize_state_shape f.discnumber f.filename with hid | ⟨c, hc, hmax⟩
      · simp only [shiftsAfter, extract_discnumber, hid]
        exact ih s t h
      · simp only [shiftsAfter, extract_discnumber, hmax]
        have h2 := ih (max s c) (max t c) (by omega)
        have h3 := shiftsAfter_le rest ⟨max s c⟩
        simp only [h2]
        simp only [NormalizerState.shift] at h3 ⊢
        omega

lemma shiftsAfter_fixed (files : List Metadata) (s : NormalizerState) :
    shiftsAfter files ⟨(shiftsAfter files s).shift⟩ = shiftsAfter files s := by
  obtain ⟨x⟩ := s
  apply NormalizerState.shift_ext
  have h1 : x ≤ (shiftsAfter files ⟨x⟩).shift := by
    simpa using shiftsAfter_le files ⟨x⟩
  have h2 := shiftsAfter_shift_max files x (shiftsAfter files ⟨x⟩).shift h1
  omega

/-- Claim C1: the claim that the normalizer state is fresh at every
invocation and that rebuilding the form for identical cluster input gives
an identical mapping fails on the code: on a cluster whose files carry
disc numbers "-1" and "-2", the first and second invocations of the
(singleton, registration-time) action object produce different mappings,
and the discnumber shift after the first invocation is no longer the
fresh -1. -/
theorem claim_C1_counterexample :
    (callback ⟨⟨"a", "b"⟩,
        [⟨some "-1", "1", "t", "a", 0, "f1"⟩, ⟨some "-2", "2", "u", "a", 0, "f2"⟩]⟩
        initAction).2 ≠
      (callback ⟨⟨"a", "b"⟩,
        [⟨some "-1", "1", "t", "a", 0, "f1"⟩, ⟨some "-2", "2", "u", "a", 0, "f2"⟩]⟩
        (callback ⟨⟨"a", "b"⟩,
          [⟨some "-1", "1", "t", "a", 0, "f1"⟩, ⟨some "-2", "2", "u", "a", 0, "f2"⟩]⟩
          initAction).1).2 ∧
    (callback ⟨⟨"a", "b"⟩,
        [⟨some "-1", "1", "t", "a", 0, "f1"⟩, ⟨some "-2", "2", "u", "a", 0, "f2"⟩]⟩
        initAction).1.discnumber_shift ≠ initAction.discnumber_shift := by
  decide

/-- Claim C1 (amended): the action object is constructed once at plugin
registration and its discnumber shift survives callback, which clears
only form_values; so building the form twice for identical cluster input
can differ between the first and second invocation, but after one
invocation the action state is a fixed point: every further invocation on
the same cluster leaves the state unchanged and reproduces the second
invocation's mapping exactly. -/
theorem claim_C1_amended (c : Cluster) (a : ActionState) :
    (callback c ((callback c a).1)).1 = (callback c a).1 ∧
    (callback c ((callback c ((callback c a).1)).1)).2 =
      (callback c ((callback c a).1)).2 := by
  have hfix : ∀ b : ActionState,
      (callback c ((callback c b).1)).1 = (callback c b).1 := by
    intro b
    simp only [callback, set_form_values, processFiles_fst]
    exact congrArg (fun x => ActionState.mk x.shift [])
      (shiftsAfter_fixed c.files ⟨b.discnumber_shift⟩)
  exact ⟨hfix a, by rw [hfix a]⟩

end Addrelease
